import Mathlib

set_option autoImplicit false

/-
Shallow embedding of the inventory-management backend
(src/backend/routes/inventory.js).

Modelling conventions:
  - JS numbers that hold quantities, prices and deltas are modelled as Int
    (the routes only add, compare with 0 and store them).
  - A request-body field that may be absent is an Option; JS string
    truthiness (absent and the empty string are falsy) is modelled
    explicitly by strTruthy.
  - The database is explicit state: a list of product rows, the
    AUTO_INCREMENT counter, the category/supplier id tables, and the
    append-only inventory_audit table.
  - logAudit in the source writes through the shared pool (db.execute),
    NOT through the transaction connection conn, so its row is
    autocommitted the moment the INSERT succeeds.  The FailOracle lets a
    run inject a failure of the audit INSERT or of conn.commit(); the
    finishTx helper reproduces the resulting visibility: a failed commit
    rolls the product mutation back but cannot remove the already
    autocommitted audit row.
-/

namespace Inventory

/-- A row of the products table: id, product_name, sku, category_id,
supplier_id, quantity, price, location (the last five nullable / defaulted
as in the INSERT of the add route). -/
structure Product where
  id : Nat
  product_name : String
  sku : String
  category_id : Option Nat
  supplier_id : Option Nat
  quantity : Int
  price : Int
  location : Option String
deriving DecidableEq, Repr

/-- Request body of POST / (add product), after JS destructuring.
category_id and supplier_id hold the result of parseInt: none when the
field is absent or not parseable as an integer. -/
structure AddBody where
  product_name : Option String
  sku : Option String
  category_id : Option Nat
  supplier_id : Option Nat
  quantity : Option Int
  price : Option Int
  location : Option String
  changed_by : Option String
deriving DecidableEq, Repr

/-- Request body of PUT /:id (update product).  Each allow-listed column is
present (some) or absent (none); a present nullable column may carry null.
extra records the names of any other submitted fields: the update loop
iterates over the fixed allowed list only, so these are never consulted. -/
structure UpdateBody where
  product_name : Option String
  sku : Option String
  category_id : Option (Option Nat)
  supplier_id : Option (Option Nat)
  quantity : Option Int
  price : Option Int
  location : Option (Option String)
  extra : List String
  changed_by : Option String
deriving DecidableEq, Repr

/-- The change_details JSON object, one shape per call site of logAudit:
the add route logs the raw destructured fields, the update route logs the
submitted body, the delete route logs the captured name/sku snapshot, the
adjust route logs the delta and the clamped new quantity. -/
inductive AuditDetails where
  | addD (product_name : String) (sku : String) (quantity : Int) (price : Int)
      (location : Option String)
  | updateD (updated_fields : UpdateBody)
  | deleteD (product_name : String) (sku : String)
  | adjustD (delta : Int) (new_quantity : Int)
deriving DecidableEq, Repr

/-- A row of the inventory_audit table. -/
structure AuditEntry where
  product_id : Option Nat
  action : String
  changed_by : String
  change_details : AuditDetails
deriving DecidableEq, Repr

/-- The database state: products plus the AUTO_INCREMENT counter,
the id sets of the categories and suppliers tables, and the audit table. -/
structure DB where
  products : List Product
  nextId : Nat
  categories : List Nat
  suppliers : List Nat
  audit : List AuditEntry
deriving DecidableEq, Repr

/-- JS truthiness of an optional string: absent (undefined) and the empty
string are falsy. -/
def strTruthy : Option String → Bool
  | none => false
  | some s => s ≠ ""

/-- JS `o || d` on an optional string: the default replaces both an absent
and an empty (falsy) value. -/
def orDefault (o : Option String) (d : String) : String :=
  match o with
  | some s => if s = "" then d else s
  | none => d

/-- JS `location || null` in the INSERT parameter list: an empty string is
downgraded to null. -/
def locOrNull : Option String → Option String
  | some s => if s = "" then none else some s
  | none => none

/-- Which injected failures a run suffers: failure of the audit INSERT
(logAudit throwing) and failure of conn.commit(). -/
structure FailOracle where
  failAudit : Bool
  failCommit : Bool
deriving DecidableEq, Repr

/-- The failure-free run. -/
def noFail : FailOracle := ⟨false, false⟩

/-- The error kinds surfaced by the routes: 400, 409, 404 and 500. -/
inductive ApiError where
  | ValidationError
  | ConflictError
  | NotFoundError
  | StorageError
deriving DecidableEq, Repr

/-- The row built by logAudit: product_id, action, changed_by defaulted to
"system" when falsy, and the serialized details. -/
def logAuditEntry (pid : Option Nat) (action : String) (changed_by : Option String)
    (details : AuditDetails) : AuditEntry :=
  { product_id := pid
    action := action
    changed_by := orDefault changed_by "system"
    change_details := details }

/-- Tail of every mutation route: the logAudit call followed by
conn.commit(), with the catch-block rollback on failure.  logAudit writes
through the pool (db.execute), outside the open transaction, so its row is
autocommitted at once: when the audit INSERT itself fails nothing new is
visible (the catch rolls the transaction back), but when the subsequent
commit fails the transaction's product mutation is rolled back while the
audit row survives.  Returns the visible database and whether the commit
succeeded. -/
def finishTx (fo : FailOracle) (db : DB) (txProducts : List Product) (txNextId : Nat)
    (entry : AuditEntry) : DB × Bool :=
  if fo.failAudit then (db, false)
  else if fo.failCommit then ({ db with audit := db.audit ++ [entry] }, false)
  else ({ db with products := txProducts
                  nextId := txNextId
                  audit := db.audit ++ [entry] }, true)

/-- Reference Validator of the add route: keep a candidate category or
supplier id only when a row with that id exists, else null. -/
def resolveRef (table : List Nat) (cand : Option Nat) : Option Nat :=
  match cand with
  | some c => if table.contains c then some c else none
  | none => none

/-- SELECT id FROM products WHERE sku = ? returns at least one row. -/
def skuTaken (db : DB) (s : String) : Bool :=
  db.products.any (fun p => p.sku == s)

/-- SELECT id FROM products WHERE sku = ? AND id <> ? returns at least one
row. -/
def skuTakenByOther (db : DB) (s : String) (id : Nat) : Bool :=
  db.products.any (fun p => p.sku == s && p.id != id)

/-- The row built by the INSERT of the add route: insertId from the
AUTO_INCREMENT counter, name and sku from the (validated, hence truthy)
body, category/supplier resolved by the Reference Validator, quantity and
price with their `|| 0` defaults (on Int the destructuring default and the
falsy-to-0 coercion coincide), location with its `|| null` downgrade. -/
def insertedRow (b : AddBody) (db : DB) : Product :=
  { id := db.nextId
    product_name := b.product_name.getD ""
    sku := b.sku.getD ""
    category_id := resolveRef db.categories b.category_id
    supplier_id := resolveRef db.suppliers b.supplier_id
    quantity := b.quantity.getD 0
    price := b.price.getD 0
    location := locOrNull (b.location) }

/-- POST / (add product).  Validation of name/sku happens before the
connection is taken; the duplicate-sku check, reference resolution, INSERT
and audit write follow the source order.  Returns the visible database and
the route outcome (201 with insertId, or an error). -/
def addProduct (fo : FailOracle) (b : AddBody) (db : DB) : DB × Except ApiError Nat :=
  if !strTruthy b.product_name || !strTruthy b.sku then
    (db, .error .ValidationError)
  else if skuTaken db (b.sku.getD "") then (db, .error .ConflictError)
  else
    let entry := logAuditEntry (some db.nextId) "ADD" b.changed_by
      (.addD (b.product_name.getD "") (b.sku.getD "") (b.quantity.getD 0)
        (b.price.getD 0) b.location)
    let fin := finishTx fo db (db.products ++ [insertedRow b db]) (db.nextId + 1) entry
    (fin.1, if fin.2 then .ok db.nextId else .error .StorageError)

/-- The SET clause of the update route: each allow-listed column present in
the body overwrites the row's column; absent columns keep their value. -/
def applyUpdates (b : UpdateBody) (p : Product) : Product :=
  { p with
    product_name := b.product_name.getD p.product_name
    sku := b.sku.getD p.sku
    category_id := b.category_id.getD p.category_id
    supplier_id := b.supplier_id.getD p.supplier_id
    quantity := b.quantity.getD p.quantity
    price := b.price.getD p.price
    location := b.location.getD p.location }

/-- The update loop produced no SET clause: none of the seven allow-listed
fields is present in the body. -/
def noUpdatableFields (b : UpdateBody) : Bool :=
  b.product_name.isNone && b.sku.isNone && b.category_id.isNone &&
  b.supplier_id.isNone && b.quantity.isNone && b.price.isNone && b.location.isNone

/-- Modelled from the spec: the products table's unique constraint on sku.
src/ contains no schema file — only the routes — and the spec's persisted
shape is "Products table keyed by generated id with a unique constraint on
sku".  An UPDATE that writes the sku column raises a store error exactly
when the written sku is already held by a row other than the target row. -/
def updSkuConstraintHit (db : DB) (id : Nat) (b : UpdateBody) : Bool :=
  match b.sku with
  | some s => skuTakenByOther db s id
  | none => false

/-- PUT /:id (update product).  Allow-list filtering and the empty-update
check happen before the connection is taken; the duplicate-sku check runs
only when the submitted sku is truthy; the UPDATE statement then either
raises the (spec-modelled) unique-constraint error, affects zero rows
(unknown id), or applies the SET clause; the audit write and commit follow. -/
def updateProduct (fo : FailOracle) (id : Nat) (b : UpdateBody) (db : DB) :
    DB × Except ApiError Unit :=
  if noUpdatableFields b then (db, .error .ValidationError)
  else if strTruthy b.sku && skuTakenByOther db (b.sku.getD "") id then
    (db, .error .ConflictError)
  else if db.products.all (fun p => p.id != id) then (db, .error .NotFoundError)
  else if updSkuConstraintHit db id b then (db, .error .StorageError)
  else
    let newProds := db.products.map (fun p => if p.id == id then applyUpdates b p else p)
    let entry := logAuditEntry (some id) "UPDATE"
      (some (orDefault b.changed_by "unknown")) (.updateD b)
    let fin := finishTx fo db newProds db.nextId entry
    (fin.1, if fin.2 then .ok () else .error .StorageError)

/-- DELETE /:id.  Reads the row first (snapshot for the audit details),
deletes it, logs the DELETE entry, commits. -/
def deleteProduct (fo : FailOracle) (id : Nat) (changed_by : Option String) (db : DB) :
    DB × Except ApiError Unit :=
  match db.products.find? (fun p => p.id == id) with
  | none => (db, .error .NotFoundError)
  | some product =>
    let newProds := db.products.filter (fun p => p.id != id)
    let entry := logAuditEntry (some id) "DELETE"
      (some (orDefault changed_by "unknown"))
      (.deleteD product.product_name product.sku)
    let fin := finishTx fo db newProds db.nextId entry
    (fin.1, if fin.2 then .ok () else .error .StorageError)

/-- One clamping step of the adjust route: let newQty = quantity + delta;
if (newQty < 0) newQty = 0. -/
def clampStep (q d : Int) : Int :=
  if q + d < 0 then 0 else q + d

/-- POST /:id/adjust.  delta is none when the submitted delta is not a
number (the typeof guard); the row is read under FOR UPDATE, the new
quantity is clamped at zero, written back, audited, committed.  Returns
the resulting quantity on success. -/
def adjustQuantity (fo : FailOracle) (id : Nat) (delta : Option Int)
    (changed_by : Option String) (db : DB) : DB × Except ApiError Int :=
  match delta with
  | none => (db, .error .ValidationError)
  | some d =>
    match db.products.find? (fun p => p.id == id) with
    | none => (db, .error .NotFoundError)
    | some row =>
      let newQty := clampStep row.quantity d
      let newProds := db.products.map
        (fun p => if p.id == id then { p with quantity := newQty } else p)
      let entry := logAuditEntry (some id) "QUANTITY_ADJUST"
        (some (orDefault changed_by "unknown")) (.adjustD d newQty)
      let fin := finishTx fo db newProds db.nextId entry
      (fin.1, if fin.2 then .ok newQty else .error .StorageError)

/-- One mutation request against the API. -/
inductive Op where
  | add (b : AddBody)
  | update (id : Nat) (b : UpdateBody)
  | del (id : Nat) (changed_by : Option String)
  | adjust (id : Nat) (delta : Option Int) (changed_by : Option String)
deriving DecidableEq, Repr

/-- The database visible after one request, successful or not, under the
given failure injection. -/
def step (fo : FailOracle) (o : Op) (db : DB) : DB :=
  match o with
  | .add b => (addProduct fo b db).1
  | .update id b => (updateProduct fo id b db).1
  | .del id c => (deleteProduct fo id c db).1
  | .adjust id d c => (adjustQuantity fo id d c db).1

/-- A serialized sequence of requests, each with its own failure injection. -/
def runOps (l : List (FailOracle × Op)) (db : DB) : DB :=
  l.foldl (fun s p => step p.1 p.2 s) db

/-- Structural health of the table: row ids are pairwise distinct and below
the AUTO_INCREMENT counter. -/
def idsOk (db : DB) : Prop :=
  db.products.Pairwise (fun p q => p.id ≠ q.id) ∧ ∀ p ∈ db.products, p.id < db.nextId

/-- The sku-uniqueness invariant: no two live rows share a sku. -/
def skuUnique (db : DB) : Prop :=
  db.products.Pairwise (fun p q => p.sku ≠ q.sku)

/-- The quantity invariant: every live row's quantity is non-negative. -/
def qtyOk (db : DB) : Prop :=
  ∀ p ∈ db.products, 0 ≤ p.quantity

/-- A request whose caller-supplied quantity (if any) is non-negative:
adds and updates may carry a quantity column value, the other requests
never write a caller-chosen quantity. -/
def qtySafe : Op → Prop
  | .add b => 0 ≤ b.quantity.getD 0
  | .update _ b => 0 ≤ b.quantity.getD 0
  | .del _ _ => True
  | .adjust _ _ _ => True

instance (o : Op) : Decidable (qtySafe o) := by
  cases o <;> (unfold qtySafe; infer_instance)

/-- A serialized sequence of successful-or-not adjust requests for one
product id, failure-free, as the spec's AdjustQuantity-sequence property
quantifies over. -/
def runAdjusts (id : Nat) (ds : List Int) (db : DB) : DB :=
  ds.foldl (fun s d => (adjustQuantity noFail id (some d) none s).1) db

deriving instance DecidableEq for Except

instance (db : DB) : Decidable (idsOk db) := by
  unfold idsOk; infer_instance

instance (db : DB) : Decidable (skuUnique db) := by
  unfold skuUnique; infer_instance

instance (db : DB) : Decidable (qtyOk db) := by
  unfold qtyOk; infer_instance

/-- The empty database, AUTO_INCREMENT at 1. -/
def emptyDB : DB :=
  { products := []
    nextId := 1
    categories := []
    suppliers := []
    audit := [] }

/-- An add body with every field absent. -/
def blankAdd : AddBody :=
  { product_name := none
    sku := none
    category_id := none
    supplier_id := none
    quantity := none
    price := none
    location := none
    changed_by := none }

/-- An update body with every field absent. -/
def blankUpd : UpdateBody :=
  { product_name := none
    sku := none
    category_id := none
    supplier_id := none
    quantity := none
    price := none
    location := none
    extra := []
    changed_by := none }

/-- The add body of the spec's worked scenario: Widget, SKU-1, quantity 5. -/
def widgetAdd : AddBody :=
  { blankAdd with product_name := some "Widget", sku := some "SKU-1", quantity := some 5 }

/-- The database holding exactly the Widget row, obtained by one add. -/
def dbWidget : DB := (addProduct noFail widgetAdd emptyDB).1

/-- An add body carrying a negative caller-supplied quantity. -/
def negQtyAdd : AddBody :=
  { blankAdd with product_name := some "Widget", sku := some "W-1", quantity := some (-5) }

/-- An add body with sku A. -/
def addSkuA : AddBody := { blankAdd with product_name := some "Widget", sku := some "A" }

/-- An add body with sku B. -/
def addSkuB : AddBody := { blankAdd with product_name := some "Gadget", sku := some "B" }

/-- An update body whose only submitted field sets sku to the empty string:
present on the allow-list, but falsy for the `if (req.body.sku)` guard. -/
def emptySkuUpd : UpdateBody := { blankUpd with sku := some "" }

/-- Reachable state with rows A (id 1) and empty-sku (id 2): two adds, then
an update of row 2 to the empty sku, which skips the duplicate check (the
empty string is falsy) and succeeds since no other row holds the empty sku. -/
def dbBlankSkuPair : DB :=
  runOps [(noFail, .add addSkuA), (noFail, .add addSkuB), (noFail, .update 2 emptySkuUpd)] emptyDB

/-- Reachable state with rows A (id 1) and B (id 2). -/
def dbAB : DB := runOps [(noFail, .add addSkuA), (noFail, .add addSkuB)] emptyDB

/-- An update body that only sets the quantity column. -/
def qtyUpd : UpdateBody := { blankUpd with quantity := some 20 }

/-- Reachable state with a single row (id 1) holding the empty sku. -/
def dbBlankSkuOne : DB :=
  runOps [(noFail, .add addSkuA), (noFail, .update 1 emptySkuUpd)] emptyDB

lemma clampStep_nonneg (q d : Int) : 0 ≤ clampStep q d := by
  unfold clampStep; split_ifs <;> omega

lemma clampStep_eq_max (q d : Int) : clampStep q d = max 0 (q + d) := by
  unfold clampStep; rw [max_def]; split_ifs <;> omega

lemma finishTx_fst (fo : FailOracle) (db : DB) (tx : List Product) (n : Nat) (e : AuditEntry) :
    (finishTx fo db tx n e).1 =
      if fo.failAudit then db
      else if fo.failCommit then { db with audit := db.audit ++ [e] }
      else { db with products := tx
                     nextId := n
                     audit := db.audit ++ [e] } := by
  unfold finishTx; split_ifs <;> rfl

lemma finishTx_snd (fo : FailOracle) (db : DB) (tx : List Product) (n : Nat) (e : AuditEntry) :
    (finishTx fo db tx n e).2 = (!fo.failAudit && !fo.failCommit) := by
  unfold finishTx; split_ifs <;> simp_all

lemma finishTx_state (fo : FailOracle) (db : DB) (tx : List Product) (n : Nat) (e : AuditEntry) :
    ((finishTx fo db tx n e).1.products = db.products ∧
      (finishTx fo db tx n e).1.nextId = db.nextId) ∨
    ((finishTx fo db tx n e).1.products = tx ∧ (finishTx fo db tx n e).1.nextId = n) := by
  rw [finishTx_fst]; split_ifs <;> simp

lemma addProduct_state (fo : FailOracle) (b : AddBody) (db : DB) :
    ((addProduct fo b db).1.products = db.products ∧
      (addProduct fo b db).1.nextId = db.nextId) ∨
    (skuTaken db (b.sku.getD "") = false ∧
      (addProduct fo b db).1.products = db.products ++ [insertedRow b db] ∧
      (addProduct fo b db).1.nextId = db.nextId + 1) := by
  unfold addProduct
  split_ifs with h1 h2
  · left; exact ⟨rfl, rfl⟩
  · left; exact ⟨rfl, rfl⟩
  · rcases finishTx_state fo db (db.products ++ [insertedRow b db]) (db.nextId + 1)
        (logAuditEntry (some db.nextId) "ADD" b.changed_by
          (.addD (b.product_name.getD "") (b.sku.getD "") (b.quantity.getD 0)
            (b.price.getD 0) b.location)) with h | h
    · left; exact h
    · right; exact ⟨by simpa using h2, h.1, h.2⟩

lemma updateProduct_state (fo : FailOracle) (id : Nat) (b : UpdateBody) (db : DB) :
    ((updateProduct fo id b db).1.products = db.products ∧
      (updateProduct fo id b db).1.nextId = db.nextId) ∨
    (updSkuConstraintHit db id b = false ∧
      (updateProduct fo id b db).1.products =
        db.products.map (fun p => if p.id == id then applyUpdates b p else p) ∧
      (updateProduct fo id b db).1.nextId = db.nextId) := by
  unfold updateProduct
  split_ifs with h1 h2 h3 h4
  · left; exact ⟨rfl, rfl⟩
  · left; exact ⟨rfl, rfl⟩
  · left; exact ⟨rfl, rfl⟩
  · left; exact ⟨rfl, rfl⟩
  · rcases finishTx_state fo db
        (db.products.map (fun p => if p.id == id then applyUpdates b p else p)) db.nextId
        (logAuditEntry (some id) "UPDATE"
          (some (orDefault b.changed_by "unknown")) (.updateD b)) with h | h
    · left; exact h
    · right; exact ⟨by simpa using h4, h.1, h.2⟩

lemma deleteProduct_state (fo : FailOracle) (id : Nat) (c : Option String) (db : DB) :
    ((deleteProduct fo id c db).1.products = db.products ∧
      (deleteProduct fo id c db).1.nextId = db.nextId) ∨
    ((deleteProduct fo id c db).1.products = db.products.filter (fun p => p.id != id) ∧
      (deleteProduct fo id c db).1.nextId = db.nextId) := by
  unfold deleteProduct
  cases hf : db.products.find? (fun p => p.id == id) with
  | none => left; exact ⟨rfl, rfl⟩
  | some product =>
    rcases finishTx_state fo db (db.products.filter (fun p => p.id != id)) db.nextId
        (logAuditEntry (some id) "DELETE" (some (orDefault c "unknown"))
          (.deleteD product.product_name product.sku)) with h | h
    · left; exact h
    · right; exact h

lemma adjustQuantity_state (fo : FailOracle) (id : Nat) (dl : Option Int) (c : Option String)
    (db : DB) :
    ((adjustQuantity fo id dl c db).1.products = db.products ∧
      (adjustQuantity fo id dl c db).1.nextId = db.nextId) ∨
    (∃ q : Int, 0 ≤ q ∧
      (adjustQuantity fo id dl c db).1.products =
        db.products.map (fun p => if p.id == id then { p with quantity := q } else p) ∧
      (adjustQuantity fo id dl c db).1.nextId = db.nextId) := by
  unfold adjustQuantity
  cases dl with
  | none => left; exact ⟨rfl, rfl⟩
  | some d =>
    cases hf : db.products.find? (fun p => p.id == id) with
    | none => left; exact ⟨rfl, rfl⟩
    | some row =>
      rcases finishTx_state fo db
          (db.products.map
            (fun p => if p.id == id then { p with quantity := clampStep row.quantity d } else p))
          db.nextId
          (logAuditEntry (some id) "QUANTITY_ADJUST" (some (orDefault c "unknown"))
            (.adjustD d (clampStep row.quantity d))) with h | h
      · left; exact h
      · right; exact ⟨clampStep row.quantity d, clampStep_nonneg _ _, h.1, h.2⟩

lemma idsOk_of_map (f : Product → Product) (hf : ∀ p, (f p).id = p.id) (l : List Product)
    (n : Nat) (h1 : l.Pairwise fun p q => p.id ≠ q.id) (h2 : ∀ p ∈ l, p.id < n) :
    ((l.map f).Pairwise fun p q => p.id ≠ q.id) ∧ ∀ p ∈ l.map f, p.id < n := by
  constructor
  · refine List.pairwise_map.2 (h1.imp ?_)
    intro a b hab
    rw [hf a, hf b]; exact hab
  · intro p hp
    rcases List.mem_map.1 hp with ⟨q, hq, rfl⟩
    rw [hf q]; exact h2 q hq

lemma step_idsOk (fo : FailOracle) (o : Op) (db : DB) (h : idsOk db) : idsOk (step fo o db) := by
  obtain ⟨h1, h2⟩ := h
  cases o with
  | add b =>
    show idsOk (addProduct fo b db).1
    rcases addProduct_state fo b db with ⟨hp, hn⟩ | ⟨_, hp, hn⟩
    · unfold idsOk; rw [hp, hn]; exact ⟨h1, h2⟩
    · unfold idsOk; rw [hp, hn]
      constructor
      · rw [List.pairwise_append]
        refine ⟨h1, List.pairwise_singleton _ _, ?_⟩
        intro a ha c hc
        simp only [List.mem_singleton] at hc; subst hc
        have hlt : a.id < db.nextId := h2 a ha
        simp only [insertedRow]
        omega
      · intro p hp'
        rcases List.mem_append.1 hp' with h' | h'
        · exact Nat.lt_succ_of_lt (h2 p h')
        · simp only [List.mem_singleton] at h'; subst h'
          simp only [insertedRow]
          omega
  | update id b =>
    show idsOk (updateProduct fo id b db).1
    rcases updateProduct_state fo id b db with ⟨hp, hn⟩ | ⟨_, hp, hn⟩
    · unfold idsOk; rw [hp, hn]; exact ⟨h1, h2⟩
    · unfold idsOk; rw [hp, hn]
      refine idsOk_of_map _ ?_ _ _ h1 h2
      intro p
      by_cases hc : p.id == id <;> simp [hc, applyUpdates]
  | del id c =>
    show idsOk (deleteProduct fo id c db).1
    rcases deleteProduct_state fo id c db with ⟨hp, hn⟩ | ⟨hp, hn⟩
    · unfold idsOk; rw [hp, hn]; exact ⟨h1, h2⟩
    · unfold idsOk; rw [hp, hn]
      exact ⟨h1.sublist (List.filter_sublist _),
        fun p hp' => h2 p (List.mem_of_mem_filter hp')⟩
  | adjust id dl c =>
    show idsOk (adjustQuantity fo id dl c db).1
    rcases adjustQuantity_state fo id dl c db with ⟨hp, hn⟩ | ⟨q, _, hp, hn⟩
    · unfold idsOk; rw [hp, hn]; exact ⟨h1, h2⟩
    · unfold idsOk; rw [hp, hn]
      refine idsOk_of_map _ ?_ _ _ h1 h2
      intro p
      by_cases hc : p.id == id <;> simp [hc]

lemma sku_map_update (id : Nat) (b : UpdateBody) :
    ∀ (l : List Product),
      (l.Pairwise fun p q => p.id ≠ q.id) →
      (l.Pairwise fun p q => p.sku ≠ q.sku) →
      (∀ q ∈ l, ∀ s, b.sku = some s → q.sku = s → q.id = id) →
      ((l.map fun p => if p.id == id then applyUpdates b p else p).Pairwise
        fun p q => p.sku ≠ q.sku) := by
  intro l
  induction l with
  | nil => intro _ _ _; simp
  | cons a t ih =>
    intro hid hsku hno
    rw [List.map_cons, List.pairwise_cons]
    obtain ⟨hida, hidt⟩ := List.pairwise_cons.1 hid
    obtain ⟨hskua, hskut⟩ := List.pairwise_cons.1 hsku
    refine ⟨?_, ih hidt hskut (fun q hq => hno q (List.mem_cons_of_mem _ hq))⟩
    intro fq hfq
    rcases List.mem_map.1 hfq with ⟨q, hq, rfl⟩
    have haq : a.id ≠ q.id := hida q hq
    by_cases ha : a.id = id
    · have hqi : ¬ q.id = id := fun hh => haq (by rw [ha, hh])
      simp only [ha, beq_self_eq_true, if_true, hqi, beq_iff_eq, if_false, applyUpdates]
      cases hbs : b.sku with
      | none => simpa using hskua q hq
      | some s =>
        simp only [Option.getD_some]
        intro hh
        exact hqi (hno q (List.mem_cons_of_mem _ hq) s hbs hh.symm)
    · by_cases hqi : q.id = id
      · simp only [ha, beq_iff_eq, if_false, hqi, beq_self_eq_true, if_true, applyUpdates]
        cases hbs : b.sku with
        | none => simpa using hskua q hq
        | some s =>
          simp only [Option.getD_some]
          intro hh
          exact ha (hno a (List.mem_cons_self _ _) s hbs hh)
      · simp only [ha, hqi, beq_iff_eq, if_false]
        exact hskua q hq

lemma step_skuUnique (fo : FailOracle) (o : Op) (db : DB) (hids : idsOk db)
    (h : skuUnique db) : skuUnique (step fo o db) := by
  obtain ⟨h1, _⟩ := hids
  cases o with
  | add b =>
    show skuUnique (addProduct fo b db).1
    rcases addProduct_state fo b db with ⟨hp, _⟩ | ⟨hs, hp, _⟩
    · unfold skuUnique; rw [hp]; exact h
    · unfold skuUnique; rw [hp, List.pairwise_append]
      refine ⟨h, List.pairwise_singleton _ _, ?_⟩
      intro a ha c hc
      simp only [List.mem_singleton] at hc; subst hc
      unfold skuTaken at hs
      rw [List.any_eq_false] at hs
      have := hs a ha
      simp only [beq_iff_eq] at this
      simpa [insertedRow] using this
  | update id b =>
    show skuUnique (updateProduct fo id b db).1
    rcases updateProduct_state fo id b db with ⟨hp, _⟩ | ⟨hc, hp, _⟩
    · unfold skuUnique; rw [hp]; exact h
    · unfold skuUnique; rw [hp]
      refine sku_map_update id b db.products h1 h ?_
      intro q hq s hbs hqs
      unfold updSkuConstraintHit at hc
      rw [hbs] at hc
      unfold skuTakenByOther at hc
      rw [List.any_eq_false] at hc
      have := hc q hq
      simp only [Bool.and_eq_true, beq_iff_eq, bne_iff_ne, not_and, not_ne_iff] at this
      exact this hqs
  | del id c =>
    show skuUnique (deleteProduct fo id c db).1
    rcases deleteProduct_state fo id c db with ⟨hp, _⟩ | ⟨hp, _⟩
    · unfold skuUnique; rw [hp]; exact h
    · unfold skuUnique; rw [hp]
      exact h.sublist (List.filter_sublist _)
  | adjust id dl c =>
    show skuUnique (adjustQuantity fo id dl c db).1
    rcases adjustQuantity_state fo id dl c db with ⟨hp, _⟩ | ⟨q, _, hp, _⟩
    · unfold skuUnique; rw [hp]; exact h
    · unfold skuUnique; rw [hp]
      refine List.pairwise_map.2 (h.imp ?_)
      intro a c' hac
      by_cases hx : a.id == id <;> by_cases hy : c'.id == id <;> simp [hx, hy] <;> exact hac

lemma step_qtyOk (fo : FailOracle) (o : Op) (db : DB) (hsafe : qtySafe o) (h : qtyOk db) :
    qtyOk (step fo o db) := by
  cases o with
  | add b =>
    show qtyOk (addProduct fo b db).1
    rcases addProduct_state fo b db with ⟨hp, _⟩ | ⟨_, hp, _⟩
    · unfold qtyOk; rw [hp]; exact h
    · unfold qtyOk; rw [hp]
      intro p hp'
      rcases List.mem_append.1 hp' with h' | h'
      · exact h p h'
      · simp only [List.mem_singleton] at h'; subst h'
        simpa [insertedRow] using hsafe
  | update id b =>
    show qtyOk (updateProduct fo id b db).1
    rcases updateProduct_state fo id b db with ⟨hp, _⟩ | ⟨_, hp, _⟩
    · unfold qtyOk; rw [hp]; exact h
    · unfold qtyOk; rw [hp]
      intro p hp'
      rcases List.mem_map.1 hp' with ⟨q, hq, rfl⟩
      by_cases hc : q.id == id
      · simp only [hc, if_true, applyUpdates]
        cases hbq : b.quantity with
        | none => simpa using h q hq
        | some v =>
          simp only [Option.getD_some]
          have hsv : 0 ≤ b.quantity.getD 0 := hsafe
          rw [hbq] at hsv
          simpa using hsv
      · simp only [hc, if_false]
        exact h q hq
  | del id c =>
    show qtyOk (deleteProduct fo id c db).1
    rcases deleteProduct_state fo id c db with ⟨hp, _⟩ | ⟨hp, _⟩
    · unfold qtyOk; rw [hp]; exact h
    · unfold qtyOk; rw [hp]
      intro p hp'
      exact h p (List.mem_of_mem_filter hp')
  | adjust id dl c =>
    show qtyOk (adjustQuantity fo id dl c db).1
    rcases adjustQuantity_state fo id dl c db with ⟨hp, _⟩ | ⟨q, hq0, hp, _⟩
    · unfold qtyOk; rw [hp]; exact h
    · unfold qtyOk; rw [hp]
      intro p hp'
      rcases List.mem_map.1 hp' with ⟨r, hr, rfl⟩
      by_cases hc : r.id == id
      · simpa [hc] using hq0
      · simp only [hc, if_false]
        exact h r hr

lemma runOps_inv (l : List (FailOracle × Op)) :
    ∀ (db : DB), idsOk db → skuUnique db → idsOk (runOps l db) ∧ skuUnique (runOps l db) := by
  induction l with
  | nil => intro db h1 h2; exact ⟨h1, h2⟩
  | cons x t ih =>
    intro db h1 h2
    have hstep1 := step_idsOk x.1 x.2 db ⟨h1.1, h1.2⟩
    have hstep2 := step_skuUnique x.1 x.2 db ⟨h1.1, h1.2⟩ h2
    simpa [runOps, List.foldl_cons] using ih (step x.1 x.2 db) hstep1 hstep2

lemma runOps_qty (l : List (FailOracle × Op)) :
    ∀ (db : DB), qtyOk db → (∀ x ∈ l, qtySafe x.2) → qtyOk (runOps l db) := by
  induction l with
  | nil => intro db h _; exact h
  | cons x t ih =>
    intro db h hs
    have hstep := step_qtyOk x.1 x.2 db (hs x (List.mem_cons_self _ _)) h
    simpa [runOps, List.foldl_cons] using
      ih (step x.1 x.2 db) hstep (fun y hy => hs y (List.mem_cons_of_mem _ hy))

lemma finishTx_products (fo : FailOracle) (db : DB) (tx : List Product) (n : Nat)
    (e : AuditEntry) :
    (finishTx fo db tx n e).1.products =
      if (fo.failAudit || fo.failCommit) then db.products else tx := by
  rw [finishTx_fst]
  by_cases h1 : fo.failAudit <;> by_cases h2 : fo.failCommit <;> simp [h1, h2]

lemma update_truthy_conflict (fo : FailOracle) (id : Nat) (b : UpdateBody) (db : DB)
    (s : String) (h1 : b.sku = some s) (h2 : s ≠ "") (h3 : skuTakenByOther db s id = true) :
    updateProduct fo id b db = (db, .error .ConflictError) := by
  have hnu : noUpdatableFields b = false := by
    unfold noUpdatableFields
    rw [h1]
    simp
  have hst : strTruthy b.sku = true := by
    rw [h1]; unfold strTruthy; simpa using h2
  have hgd : b.sku.getD "" = s := by rw [h1]; rfl
  unfold updateProduct
  rw [hnu, hst, hgd, h3]
  simp

lemma adjust_found (id : Nat) (d : Int) (c : Option String) (db : DB) (p : Product)
    (hp : db.products.find? (fun q => q.id == id) = some p) :
    (adjustQuantity noFail id (some d) c db).1.products =
        db.products.map
          (fun q => if q.id == id then { q with quantity := clampStep p.quantity d } else q) ∧
    (adjustQuantity noFail id (some d) c db).1.audit =
        db.audit ++ [logAuditEntry (some id) "QUANTITY_ADJUST"
          (some (orDefault c "unknown")) (.adjustD d (clampStep p.quantity d))] ∧
    (adjustQuantity noFail id (some d) c db).2 = .ok (clampStep p.quantity d) := by
  unfold adjustQuantity
  rw [hp]
  simp [finishTx, noFail]

lemma find?_map_ite (id : Nat) (g : Product → Product) (hg : ∀ x, (g x).id = x.id) :
    ∀ (l : List Product) (p : Product), l.find? (fun q => q.id == id) = some p →
      (l.map fun q => if q.id == id then g q else q).find? (fun q => q.id == id) =
        some (if p.id == id then g p else p) := by
  intro l
  induction l with
  | nil => intro p hp; simp at hp
  | cons a t ih =>
    intro p hp
    by_cases ha : (a.id == id) = true
    · simp only [List.find?_cons, ha] at hp
      injection hp with hpe
      subst hpe
      have hfa : (if (a.id == id) = true then g a else a) = g a := if_pos ha
      simp only [List.map_cons, List.find?_cons, hfa]
      rw [hg a, ha]
    · have ha' : (a.id == id) = false := by simpa using ha
      simp only [List.find?_cons, ha'] at hp
      have hfa : (if (a.id == id) = true then g a else a) = a := by
        rw [ha']; simp
      simp only [List.map_cons, List.find?_cons, hfa]
      rw [ha']
      exact ih p hp

lemma adjust_found_find (id : Nat) (d : Int) (c : Option String) (db : DB) (p : Product)
    (hp : db.products.find? (fun q => q.id == id) = some p) :
    (adjustQuantity noFail id (some d) c db).1.products.find? (fun q => q.id == id) =
      some { p with quantity := clampStep p.quantity d } := by
  have hpid := List.find?_some hp
  rw [(adjust_found id d c db p hp).1]
  rw [find?_map_ite id (fun q => { q with quantity := clampStep p.quantity d })
      (fun x => rfl) db.products p hp]
  simp only [hpid, if_true]

lemma foldl_clamp_of_take (ds : List Int) :
    ∀ q : Int, (∀ n, n ≤ ds.length → 0 ≤ q + (ds.take n).sum) →
      ds.foldl clampStep q = q + ds.sum := by
  induction ds with
  | nil => intro q _; simp
  | cons d t ih =>
    intro q hpre
    have h0 : 0 ≤ q + d := by
      have := hpre 1 (by simp)
      simpa using this
    have hstep : clampStep q d = q + d := by unfold clampStep; omega
    rw [List.foldl_cons, hstep, ih (q + d) ?_]
    · rw [List.sum_cons]; ring
    · intro n hn
      have := hpre (n + 1) (by simpa using hn)
      simp only [List.take_succ_cons, List.sum_cons] at this
      omega

lemma runAdjusts_found (id : Nat) :
    ∀ (ds : List Int) (db : DB) (p : Product),
      db.products.find? (fun q => q.id == id) = some p →
      (runAdjusts id ds db).products.find? (fun q => q.id == id) =
        some { p with quantity := ds.foldl clampStep p.quantity } := by
  intro ds
  induction ds with
  | nil => intro db p hp; simpa [runAdjusts] using hp
  | cons d t ih =>
    intro db p hp
    have h2 := adjust_found_find id d none db p hp
    have h3 := ih (adjustQuantity noFail id (some d) none db).1
        { p with quantity := clampStep p.quantity d } h2
    simpa [runAdjusts, List.foldl_cons] using h3

lemma delete_not_found (fo : FailOracle) (id : Nat) (c : Option String) (db : DB)
    (h : db.products.find? (fun p => p.id == id) = none) :
    deleteProduct fo id c db = (db, .error .NotFoundError) := by
  unfold deleteProduct
  rw [h]

lemma delete_found (id : Nat) (c : Option String) (db : DB) (p : Product)
    (h : db.products.find? (fun q => q.id == id) = some p) :
    (deleteProduct noFail id c db).1.products = db.products.filter (fun q => q.id != id) ∧
    (deleteProduct noFail id c db).1.audit =
        db.audit ++ [logAuditEntry (some id) "DELETE" (some (orDefault c "unknown"))
          (.deleteD p.product_name p.sku)] ∧
    (deleteProduct noFail id c db).2 = .ok () := by
  unfold deleteProduct
  rw [h]
  simp [finishTx, noFail]

lemma update_extra_invariant (fo : FailOracle) (id : Nat) (b : UpdateBody) (e : List String)
    (db : DB) :
    (updateProduct fo id { b with extra := e } db).1.products =
        (updateProduct fo id b db).1.products ∧
    (updateProduct fo id { b with extra := e } db).2 = (updateProduct fo id b db).2 := by
  rcases b with ⟨pn, sk, ci, si, qt, pr, loc, ex, cb⟩
  unfold updateProduct noUpdatableFields strTruthy updSkuConstraintHit applyUpdates
  dsimp only
  split_ifs <;>
    first
      | exact ⟨rfl, rfl⟩
      | constructor <;> simp_all [finishTx_products, finishTx_snd]

/-- C1: the claim states that each mutation is one atomic transaction — on
success the row mutation and exactly one audit entry persist, and on any
failure (including a failure after the duplicate check) zero new rows and
zero audit entries are visible, an audit entry in particular never
surviving a failed commit.  The code violates the commit half: logAudit
writes through the shared pool (db.execute), not the transaction connection,
so its row is autocommitted; at the concrete input below a failed
conn.commit() rolls the insert back yet leaves the ADD audit entry visible
(one audit entry, zero rows).  The other direction the code does honour: a
failed audit INSERT leaves the database exactly unchanged. -/
theorem add_commit_failure_strands_audit_entry :
    (addProduct ⟨false, true⟩ widgetAdd emptyDB).2 = .error .StorageError ∧
    (addProduct ⟨false, true⟩ widgetAdd emptyDB).1.products = [] ∧
    (addProduct ⟨false, true⟩ widgetAdd emptyDB).1.audit =
      [logAuditEntry (some 1) "ADD" none (.addD "Widget" "SKU-1" 5 0 none)] ∧
    (addProduct ⟨true, false⟩ widgetAdd emptyDB).1 = emptyDB := by
  decide

/-- C2 counterexample: the claim states that no operation can make a live
product's quantity negative; but the add route stores a caller-supplied
negative quantity unchecked, so a single successful Add of quantity -5
breaks the invariant. -/
theorem add_negative_quantity_breaks_invariant :
    qtyOk emptyDB ∧
    (addProduct noFail negQtyAdd emptyDB).2 = .ok 1 ∧
    ¬ qtyOk (addProduct noFail negQtyAdd emptyDB).1 := by
  decide

/-- C2 (amended): quantities of live products stay non-negative under every
operation sequence, with any failure injection, provided each Add or Update
in the sequence supplies a non-negative quantity (AdjustQuantity clamps at
zero on its own and needs no proviso). -/
theorem quantity_nonneg_preserved_of_safe_inputs (l : List (FailOracle × Op)) (db : DB)
    (h0 : qtyOk db) (hs : ∀ x ∈ l, qtySafe x.2) : qtyOk (runOps l db) :=
  runOps_qty l db h0 hs

/-- Witness for the amended C2 theorem at a concrete sequence: an add of
quantity 5 followed by an adjust of -7 keeps every quantity non-negative. -/
theorem quantity_nonneg_preserved_of_safe_inputs_witness :
    qtyOk emptyDB ∧
    (∀ x ∈ [(noFail, Op.add widgetAdd), (noFail, Op.adjust 1 (some (-7)) none)], qtySafe x.2) ∧
    qtyOk (runOps [(noFail, Op.add widgetAdd), (noFail, Op.adjust 1 (some (-7)) none)] emptyDB) :=
  ⟨by decide, by decide,
   quantity_nonneg_preserved_of_safe_inputs
     [(noFail, Op.add widgetAdd), (noFail, Op.adjust 1 (some (-7)) none)] emptyDB
     (by decide) (by decide)⟩

/-- C3: sku uniqueness of live products is preserved by every operation
sequence under any failure injection, from any state with well-formed ids
and unique skus.  The add route checks duplicates inside the transaction;
the update route's application-level check is skipped for a falsy sku, and
the proof there rests on the spec-modelled unique constraint of the
products table (updSkuConstraintHit), whose violation aborts the
transaction. -/
theorem sku_never_duplicated (l : List (FailOracle × Op)) (db : DB)
    (h1 : idsOk db) (h2 : skuUnique db) : skuUnique (runOps l db) :=
  (runOps_inv l db h1 h2).2

/-- Witness for C3 at a concrete sequence: two adds and an update that
moves row 2 to the empty sku keep skus unique. -/
theorem sku_never_duplicated_witness :
    idsOk emptyDB ∧ skuUnique emptyDB ∧
    skuUnique (runOps [(noFail, Op.add addSkuA), (noFail, Op.add addSkuB),
      (noFail, Op.update 2 emptySkuUpd)] emptyDB) :=
  ⟨by decide, by decide,
   sku_never_duplicated [(noFail, Op.add addSkuA), (noFail, Op.add addSkuB),
     (noFail, Op.update 2 emptySkuUpd)] emptyDB (by decide) (by decide)⟩

/-- C4 counterexample: the claim states that a sequence of successful
adjusts ends at max(0, initial + sum of deltas) in any order; but clamping
is applied per step: from quantity 5, deltas -10 then +10 are both accepted
(first result 0, second 10) and end at 10, while max(0, 5 + (-10 + 10))
is 5. -/
theorem adjust_deltas_not_summed :
    (adjustQuantity noFail 1 (some (-10)) none dbWidget).2 = .ok 0 ∧
    (adjustQuantity noFail 1 (some 10) none
        (adjustQuantity noFail 1 (some (-10)) none dbWidget).1).2 = .ok 10 ∧
    ((adjustQuantity noFail 1 (some 10) none
        (adjustQuantity noFail 1 (some (-10)) none dbWidget).1).1.products.map
      (fun p => p.quantity)) = [10] ∧
    max 0 (5 + ((-10) + 10)) = (5 : Int) ∧ (10 : Int) ≠ 5 := by
  decide

/-- C4 (amended): after a sequence of failure-free adjusts the stored
quantity is the left-to-right fold of the per-step clamp over the deltas in
serialization order; when no prefix of the deltas drives the running total
below zero this equals max(0, initial + sum of deltas) — in general the
result depends on the order, as the per-step clamp discards the deficit. -/
theorem adjust_sequence_folds_clamp (id : Nat) (ds : List Int) (db : DB) (p : Product)
    (hp : db.products.find? (fun q => q.id == id) = some p) :
    (runAdjusts id ds db).products.find? (fun q => q.id == id) =
      some { p with quantity := ds.foldl clampStep p.quantity } ∧
    ((∀ n, n ≤ ds.length → 0 ≤ p.quantity + (ds.take n).sum) →
      ds.foldl clampStep p.quantity = max 0 (p.quantity + ds.sum)) := by
  refine ⟨runAdjusts_found id ds db p hp, ?_⟩
  intro hall
  rw [foldl_clamp_of_take ds p.quantity hall]
  have h0 : 0 ≤ p.quantity + ds.sum := by
    have := hall ds.length le_rfl
    simpa [List.take_length] using this
  exact (max_eq_right h0).symm

/-- Witness for the amended C4 theorem: from the Widget row (quantity 5),
deltas 3 then -2 fold to 6, which equals max(0, 5 + 1) since no prefix dips
below zero. -/
theorem adjust_sequence_folds_clamp_witness :
    dbWidget.products.find? (fun q => q.id == 1) = some (insertedRow widgetAdd emptyDB) ∧
    (runAdjusts 1 [3, -2] dbWidget).products.find? (fun q => q.id == 1) =
      some { insertedRow widgetAdd emptyDB with
             quantity := [3, -2].foldl clampStep (insertedRow widgetAdd emptyDB).quantity } ∧
    (∀ n, n ≤ ([3, -2] : List Int).length →
      0 ≤ (insertedRow widgetAdd emptyDB).quantity + (([3, -2] : List Int).take n).sum) ∧
    ([3, -2] : List Int).foldl clampStep (insertedRow widgetAdd emptyDB).quantity =
      max 0 ((insertedRow widgetAdd emptyDB).quantity + ([3, -2] : List Int).sum) :=
  ⟨by decide,
   (adjust_sequence_folds_clamp 1 [3, -2] dbWidget (insertedRow widgetAdd emptyDB) (by decide)).1,
   by decide,
   (adjust_sequence_folds_clamp 1 [3, -2] dbWidget (insertedRow widgetAdd emptyDB)
     (by decide)).2 (by decide)⟩

/-- C5 counterexample: the claim states that an update whose changed fields
include a sku already used by a different product fails with ConflictError;
but for the empty (falsy) sku the application-level check is skipped and, in
the reachable state dbBlankSkuPair (row 2 holds the empty sku), updating
row 1 to the empty sku fails with the store's constraint error
(StorageError, surfaced as 500), not ConflictError. -/
theorem update_blank_sku_not_conflict :
    (∃ p ∈ dbBlankSkuPair.products, p.sku = "" ∧ p.id ≠ 1) ∧
    (updateProduct noFail 1 emptySkuUpd dbBlankSkuPair).2 = .error .StorageError ∧
    (updateProduct noFail 1 emptySkuUpd dbBlankSkuPair).2 ≠ .error .ConflictError := by
  decide

/-- C5 (amended): an update whose changed fields include a truthy
(non-empty) sku that is already used by a different product fails with
ConflictError and leaves the database exactly unchanged, under any failure
injection; for the empty sku the duplicate is caught only by the
spec-modelled unique constraint, surfacing as StorageError instead. -/
theorem update_dup_sku_conflict (fo : FailOracle) (id : Nat) (b : UpdateBody) (db : DB)
    (s : String) (h1 : b.sku = some s) (h2 : s ≠ "")
    (h3 : ∃ p ∈ db.products, p.sku = s ∧ p.id ≠ id) :
    updateProduct fo id b db = (db, .error .ConflictError) := by
  apply update_truthy_conflict fo id b db s h1 h2
  unfold skuTakenByOther
  rw [List.any_eq_true]
  rcases h3 with ⟨p, hp, hs, hid⟩
  exact ⟨p, hp, by simp [hs, hid]⟩

/-- Witness for the amended C5 theorem: updating row 1 of dbAB to sku B,
which row 2 already holds, yields ConflictError and no change. -/
theorem update_dup_sku_conflict_witness :
    ({ blankUpd with sku := some "B" } : UpdateBody).sku = some "B" ∧
    ("B" : String) ≠ "" ∧
    (∃ p ∈ dbAB.products, p.sku = "B" ∧ p.id ≠ 1) ∧
    updateProduct noFail 1 { blankUpd with sku := some "B" } dbAB =
      (dbAB, .error .ConflictError) :=
  ⟨rfl, by decide, by decide,
   update_dup_sku_conflict noFail 1 { blankUpd with sku := some "B" } dbAB "B"
     rfl (by decide) (by decide)⟩

/-- C6: a failure-free adjust of an existing product with quantity q and
numeric delta d stores exactly max(0, q + d) as the new quantity and
returns that same value. -/
theorem adjust_stores_and_returns_clamped (id : Nat) (d : Int) (c : Option String) (db : DB)
    (p : Product) (hp : db.products.find? (fun q => q.id == id) = some p) :
    (adjustQuantity noFail id (some d) c db).2 = .ok (max 0 (p.quantity + d)) ∧
    (adjustQuantity noFail id (some d) c db).1.products.find? (fun q => q.id == id) =
      some { p with quantity := max 0 (p.quantity + d) } := by
  have h1 := (adjust_found id d c db p hp).2.2
  have h2 := adjust_found_find id d c db p hp
  rw [clampStep_eq_max] at h1 h2
  exact ⟨h1, h2⟩

/-- Witness for C6: adjusting the Widget row (quantity 5) by -10 returns
and stores max(0, -5) = 0. -/
theorem adjust_stores_and_returns_clamped_witness :
    dbWidget.products.find? (fun q => q.id == 1) = some (insertedRow widgetAdd emptyDB) ∧
    (adjustQuantity noFail 1 (some (-10)) none dbWidget).2 =
      .ok (max 0 ((insertedRow widgetAdd emptyDB).quantity + (-10))) :=
  ⟨by decide,
   (adjust_stores_and_returns_clamped 1 (-10) none dbWidget
     (insertedRow widgetAdd emptyDB) (by decide)).1⟩

/-- C7: deleting a nonexistent id fails with NotFoundError, leaving the
database (audit table included) exactly unchanged, under any failure
injection; deleting an existing row (failure-free) captures its name and
sku first, removes the row, and appends exactly one DELETE audit entry
referencing the deleted id with the captured name and sku. -/
theorem delete_snapshot_and_audit (fo : FailOracle) (id : Nat) (c : Option String) (db : DB) :
    (db.products.find? (fun p => p.id == id) = none →
      deleteProduct fo id c db = (db, .error .NotFoundError)) ∧
    (∀ p, db.products.find? (fun q => q.id == id) = some p →
      (deleteProduct noFail id c db).1.products = db.products.filter (fun q => q.id != id) ∧
      (deleteProduct noFail id c db).1.audit =
        db.audit ++ [logAuditEntry (some id) "DELETE" (some (orDefault c "unknown"))
          (.deleteD p.product_name p.sku)] ∧
      (deleteProduct noFail id c db).2 = .ok ()) :=
  ⟨fun h => delete_not_found fo id c db h, fun p hp => delete_found id c db p hp⟩

/-- Witness for C7: deleting id 99 from dbWidget is NotFoundError with no
change; deleting id 1 removes the row and appends the DELETE entry with the
captured name Widget and sku SKU-1. -/
theorem delete_snapshot_and_audit_witness :
    deleteProduct noFail 99 none dbWidget = (dbWidget, .error .NotFoundError) ∧
    (deleteProduct noFail 1 none dbWidget).1.audit =
      dbWidget.audit ++ [logAuditEntry (some 1) "DELETE" (some "unknown")
        (.deleteD "Widget" "SKU-1")] :=
  ⟨(delete_snapshot_and_audit noFail 99 none dbWidget).1 (by decide),
   ((delete_snapshot_and_audit noFail 1 none dbWidget).2
     (insertedRow widgetAdd emptyDB) (by decide)).2.1⟩

/-- C8: an add whose name or sku is absent or empty (falsy) fails with
ValidationError and returns the database exactly unchanged — the guard runs
before the connection is taken, so no row and no audit entry can appear,
under any failure injection. -/
theorem add_missing_fields_validation (fo : FailOracle) (b : AddBody) (db : DB)
    (h : strTruthy b.product_name = false ∨ strTruthy b.sku = false) :
    addProduct fo b db = (db, .error .ValidationError) := by
  unfold addProduct
  rcases h with h | h <;> rw [h] <;> simp

/-- Witness for C8: the all-absent body fails validation on emptyDB. -/
theorem add_missing_fields_validation_witness :
    (strTruthy blankAdd.product_name = false ∨ strTruthy blankAdd.sku = false) ∧
    addProduct noFail blankAdd emptyDB = (emptyDB, .error .ValidationError) :=
  ⟨by decide, add_missing_fields_validation noFail blankAdd emptyDB (by decide)⟩

/-- C9: the update route applies only the seven allow-listed columns: when
none of them is submitted it fails with ValidationError and returns the
database unchanged, and any other submitted field is ignored rather than
rejected — the resulting product table and the route outcome are identical
whatever extra fields accompany the request. -/
theorem update_allowlist_only (fo : FailOracle) (id : Nat) (b : UpdateBody) (e : List String)
    (db : DB) :
    (noUpdatableFields b = true → updateProduct fo id b db = (db, .error .ValidationError)) ∧
    (updateProduct fo id { b with extra := e } db).1.products =
      (updateProduct fo id b db).1.products ∧
    (updateProduct fo id { b with extra := e } db).2 = (updateProduct fo id b db).2 := by
  refine ⟨?_, (update_extra_invariant fo id b e db).1, (update_extra_invariant fo id b e db).2⟩
  intro h
  unfold updateProduct
  rw [h]
  simp

/-- Witness for C9: a body with only unknown fields fails validation, and a
quantity-only update of the Widget row yields the same product table with or
without an extra unknown field. -/
theorem update_allowlist_only_witness :
    noUpdatableFields { blankUpd with extra := ["note"] } = true ∧
    updateProduct noFail 1 { blankUpd with extra := ["note"] } dbWidget =
      (dbWidget, .error .ValidationError) ∧
    (updateProduct noFail 1 { qtyUpd with extra := ["note"] } dbWidget).1.products =
      (updateProduct noFail 1 qtyUpd dbWidget).1.products :=
  ⟨by decide,
   (update_allowlist_only noFail 1 { blankUpd with extra := ["note"] } [] dbWidget).1 (by decide),
   (update_allowlist_only noFail 1 qtyUpd ["note"] dbWidget).2.1⟩

/-- C10 counterexample: the claim states that an update of a nonexistent id
whose submitted fields include a sku already used by some existing product
fails with ConflictError rather than NotFoundError; but for the empty
(falsy) sku the duplicate check is skipped, so in the reachable state
dbBlankSkuOne (row 1 holds the empty sku) updating id 999 to the empty sku
fails with NotFoundError. -/
theorem update_missing_id_blank_sku_notfound :
    (∃ p ∈ dbBlankSkuOne.products, p.sku = "") ∧
    (∀ p ∈ dbBlankSkuOne.products, p.id ≠ 999) ∧
    (updateProduct noFail 999 emptySkuUpd dbBlankSkuOne).2 = .error .NotFoundError ∧
    (updateProduct noFail 999 emptySkuUpd dbBlankSkuOne).2 ≠ .error .ConflictError := by
  decide

/-- C10 (amended): an update of an id matching no product whose submitted
fields include a truthy (non-empty) sku held by some existing product fails
with ConflictError, not NotFoundError: the duplicate check runs before the
existence of the target id is established. -/
theorem update_missing_id_dup_sku_conflict (fo : FailOracle) (id : Nat) (b : UpdateBody)
    (db : DB) (s : String) (h1 : b.sku = some s) (h2 : s ≠ "")
    (h3 : ∀ p ∈ db.products, p.id ≠ id) (h4 : ∃ p ∈ db.products, p.sku = s) :
    updateProduct fo id b db = (db, .error .ConflictError) := by
  apply update_truthy_conflict fo id b db s h1 h2
  unfold skuTakenByOther
  rw [List.any_eq_true]
  rcases h4 with ⟨p, hp, hs⟩
  exact ⟨p, hp, by simp [hs, h3 p hp]⟩

/-- Witness for the amended C10 theorem: dbWidget holds sku SKU-1 on row 1
only, and updating the absent id 999 to SKU-1 yields ConflictError. -/
theorem update_missing_id_dup_sku_conflict_witness :
    ({ blankUpd with sku := some "SKU-1" } : UpdateBody).sku = some "SKU-1" ∧
    ("SKU-1" : String) ≠ "" ∧
    (∀ p ∈ dbWidget.products, p.id ≠ 999) ∧
    (∃ p ∈ dbWidget.products, p.sku = "SKU-1") ∧
    updateProduct noFail 999 { blankUpd with sku := some "SKU-1" } dbWidget =
      (dbWidget, .error .ConflictError) :=
  ⟨rfl, by decide, by decide, by decide,
   update_missing_id_dup_sku_conflict noFail 999 { blankUpd with sku := some "SKU-1" }
     dbWidget "SKU-1" rfl (by decide) (by decide) (by decide)⟩

end Inventory
